import Mathlib

/-!
A shallow embedding of the typed request-extraction / response-construction
protocol of the `poem` web framework core (`src/web/mod.rs` and
`src/web/form.rs`), together with theorems settling the specification's
claims about it.

The extraction protocol
`from_request(parts: &RequestParts, body: &mut Option<Body>) -> Result<T>`
is embedded as a state-passing function
`RequestParts → Option Body → Except Error T × Option Body`:
the returned holder is the contents of the `&mut Option<Body>` slot after the
call.  Trait-generic implementations (`Option<T>: FromRequest`,
`(StatusCode, T): IntoResponse`, ...) are embedded as functions parameterised
over the inner implementation's embedding.  External decoders
(`serde_urlencoded::from_str` / `from_bytes`) are parameters as well, since
they are external collaborators of this module.

Types from sibling modules of the repository that are not part of the
provided sources (`crate::body::Body`, `crate::error::Error`,
`crate::response::Response`) are modelled from the spec, as indicated by
their doc comments.
-/

namespace Poem

/-- Byte sequences (`Vec<u8>` / `Bytes`) are lists of naturals below 256;
the bound is irrelevant to the control flow modelled here. -/
abbrev ByteL := List Nat

/-- HTTP method (`http::Method`), an enum of the standard verbs.  The code
under scrutiny only ever compares a method against `GET`. -/
inductive Method where
  | GET
  | POST
  | PUT
  | DELETE
  | HEAD
  | OPTIONS
  | CONNECT
  | PATCH
  | TRACE
  deriving DecidableEq, Repr

/-- Target URI (`http::Uri`): the code only projects the query component,
`query()` returning `none` when the URI has no query part. -/
structure Uri where
  path : String := "/"
  query : Option String := none
  deriving DecidableEq, Repr

/-- ASCII lower-casing of a character, used to model the case-insensitive
header-name comparison of `http::HeaderMap`. -/
def asciiLowerChar (c : Char) : Char :=
  if 64 < c.toNat && c.toNat < 91 then Char.ofNat (c.toNat + 32) else c

/-- ASCII lower-casing of a string. -/
def asciiLower (s : String) : String :=
  String.mk (s.data.map asciiLowerChar)

/-- Header collection (`http::HeaderMap`): a multi-valued map with
case-insensitive names, kept here as an ordered list of name/value pairs. -/
structure HeaderMap where
  entries : List (String × String)
  deriving DecidableEq, Repr

/-- `HeaderMap::get`: the first value stored for the given name
(name comparison case-insensitive, value returned verbatim). -/
def HeaderMap.get (m : HeaderMap) (name : String) : Option String :=
  (m.entries.find? (fun p => asciiLower p.1 == asciiLower name)).map Prod.snd

/-- Modelled from the spec: extending a header collection with another one
appends the supplied pairs, it does not replace existing same-named entries
(`resp.headers_mut().extend(...)`; §4.4 "extends (does not replace) the
response's headers with the supplied collection — multiple same-named
headers accumulate rather than overwrite").  The `http` crate implementing
`HeaderMap` is an external collaborator, not part of the given sources. -/
def HeaderMap.extend (m other : HeaderMap) : HeaderMap :=
  ⟨m.entries ++ other.entries⟩

/-- Protocol version (`http::Version`). -/
inductive Version where
  | http09
  | http10
  | http11
  | h2
  | h3
  deriving DecidableEq, Repr

/-- Modelled from the spec: the extension slots are a typed, keyed
side-channel for out-of-band data; no code under scrutiny reads or writes
them, so a keyed list of strings suffices as a carrier. -/
abbrev Extensions := List (String × String)

/-- Component parts of an HTTP request (`RequestParts` in `src/web/mod.rs`). -/
structure RequestParts where
  method : Method
  uri : Uri
  version : Version
  headers : HeaderMap
  extensions : Extensions
  deriving DecidableEq, Repr

/-- Modelled from the spec: the error taxonomy of `crate::error` (not under
the given sources): body-already-taken, invalid-content-type, decode/parse
failure (`Error::bad_request`, carrying a client-facing message), I/O
failure, and a generic pass-through kind. -/
inductive Error where
  | bodyHasBeenTaken
  | invalidFormContentType
  | badRequest (msg : String)
  | ioFailure (msg : String)
  | internal (msg : String)
  deriving DecidableEq, Repr

deriving instance DecidableEq for Except

/-- Modelled from the spec: the Body Resource (`crate::body::Body`, not under
the given sources) wraps buffered bytes or a lazy byte stream; its single
consuming operation `into_bytes` reads it to completion and yields the
payload bytes or an I/O failure.  The field records the outcome that this
read produces. -/
structure Body where
  intoBytes : Except Error ByteL
  deriving DecidableEq, Repr

/-- The `&mut Option<Body>` slot: `some b` is the Present state of the body
lifecycle, `none` the Taken state. -/
abbrev BodyHolder := Option Body

/-- An extractor that can deserialize some type from query string or body
(`Form<T>` in `src/web/form.rs`: a transparent wrapper over the decoded
value). -/
structure Form (α : Type) where
  val : α
  deriving DecidableEq, Repr

/-- Modelled from the spec: a Response (`crate::response::Response`, not
under the given sources) holds a status code (default 200), a header
collection and a body. -/
structure Response where
  status : Nat := 200
  headers : HeaderMap := ⟨[]⟩
  body : ByteL := []
  deriving DecidableEq, Repr

/-- `Response::set_status`. -/
def Response.setStatus (r : Response) (s : Nat) : Response :=
  { r with status := s }

/-- `resp.headers_mut().extend(iter)`: extend the response's header
collection in place. -/
def Response.extendHeaders (r : Response) (hs : HeaderMap) : Response :=
  { r with headers := r.headers.extend hs }

/-! ## Extraction protocol: built-in implementations from `src/web/mod.rs` -/

/-- `impl FromRequest for &RequestParts`: `Ok(parts)`; the body slot is not
touched. -/
def requestPartsFromRequest (parts : RequestParts) (body : BodyHolder) :
    Except Error RequestParts × BodyHolder :=
  (.ok parts, body)

/-- `impl FromRequest for &Uri`: `Ok(&parts.uri)`. -/
def uriFromRequest (parts : RequestParts) (body : BodyHolder) :
    Except Error Uri × BodyHolder :=
  (.ok parts.uri, body)

/-- `impl FromRequest for Method`: `Ok(parts.method.clone())`. -/
def methodFromRequest (parts : RequestParts) (body : BodyHolder) :
    Except Error Method × BodyHolder :=
  (.ok parts.method, body)

/-- `impl FromRequest for Version`: `Ok(parts.version)`. -/
def versionFromRequest (parts : RequestParts) (body : BodyHolder) :
    Except Error Version × BodyHolder :=
  (.ok parts.version, body)

/-- `impl FromRequest for &HeaderMap`: `Ok(&parts.headers)`. -/
def headersFromRequest (parts : RequestParts) (body : BodyHolder) :
    Except Error HeaderMap × BodyHolder :=
  (.ok parts.headers, body)

/-- `impl FromRequest for Body`:
`Ok(body.take().ok_or(ErrorBodyHasBeenTaken)?)`.  `Option::take` empties the
slot and yields its previous contents. -/
def bodyFromRequest (_parts : RequestParts) (body : BodyHolder) :
    Except Error Body × BodyHolder :=
  match body with
  | some b => (.ok b, none)
  | none => (.error .bodyHasBeenTaken, none)

/-- Modelled from the spec: Rust's `String::from_utf8` (standard library,
external to the given sources) accepts exactly the byte sequences that are
well-formed UTF-8 — no overlong forms, no surrogates, no code points above
U+10FFFF — and decodes them to the corresponding character sequence.  This
decoder processes one encoded character per step. -/
def utf8Chars : List Nat → Option (List Char)
  | [] => some []
  | b :: rest =>
    if b < 0x80 then
      (utf8Chars rest).map (fun cs => Char.ofNat b :: cs)
    else if b < 0xC2 then none
    else if b < 0xE0 then
      match rest with
      | b1 :: rest2 =>
        if 0x80 ≤ b1 && b1 < 0xC0 then
          (utf8Chars rest2).map (fun cs =>
            Char.ofNat ((b - 0xC0) * 64 + (b1 - 0x80)) :: cs)
        else none
      | _ => none
    else if b < 0xF0 then
      match rest with
      | b1 :: b2 :: rest3 =>
        let lo1 := if b = 0xE0 then 0xA0 else 0x80
        let hi1 := if b = 0xED then 0xA0 else 0xC0
        if (lo1 ≤ b1 && b1 < hi1) && (0x80 ≤ b2 && b2 < 0xC0) then
          (utf8Chars rest3).map (fun cs =>
            Char.ofNat ((b - 0xE0) * 4096 + (b1 - 0x80) * 64 + (b2 - 0x80)) :: cs)
        else none
      | _ => none
    else if b < 0xF5 then
      match rest with
      | b1 :: b2 :: b3 :: rest4 =>
        let lo1 := if b = 0xF0 then 0x90 else 0x80
        let hi1 := if b = 0xF4 then 0x90 else 0xC0
        if ((lo1 ≤ b1 && b1 < hi1) && (0x80 ≤ b2 && b2 < 0xC0)) && (0x80 ≤ b3 && b3 < 0xC0) then
          (utf8Chars rest4).map (fun cs =>
            Char.ofNat ((b - 0xF0) * 262144 + (b1 - 0x80) * 4096 + (b2 - 0x80) * 64 + (b3 - 0x80)) :: cs)
        else none
      | _ => none
    else none

/-- `impl FromRequest for String`: take the body (`ErrorBodyHasBeenTaken` if
the slot is empty), read it to bytes (`into_bytes().await?`), then
`String::from_utf8(..).map_err(Error::bad_request)`. -/
def stringFromRequest (_parts : RequestParts) (body : BodyHolder) :
    Except Error String × BodyHolder :=
  match body with
  | none => (.error .bodyHasBeenTaken, none)
  | some b =>
    match b.intoBytes with
    | .error e => (.error e, none)
    | .ok bs =>
      match utf8Chars bs with
      | some cs => (.ok (String.mk cs), none)
      | none => (.error (.badRequest "invalid utf-8"), none)

/-- `impl FromRequest for Bytes`: take the body (`ErrorBodyHasBeenTaken` if
the slot is empty) and read it to bytes. -/
def bytesFromRequest (_parts : RequestParts) (body : BodyHolder) :
    Except Error ByteL × BodyHolder :=
  match body with
  | none => (.error .bodyHasBeenTaken, none)
  | some b =>
    match b.intoBytes with
    | .error e => (.error e, none)
    | .ok bs => (.ok bs, none)

/-- `impl FromRequest for Vec<u8>`: like `Bytes` followed by `to_vec()`
(an identity on the byte contents). -/
def vecFromRequest (_parts : RequestParts) (body : BodyHolder) :
    Except Error ByteL × BodyHolder :=
  match body with
  | none => (.error .bodyHasBeenTaken, none)
  | some b =>
    match b.intoBytes with
    | .error e => (.error e, none)
    | .ok bs => (.ok bs, none)

/-- `impl<T: FromRequest> FromRequest for Option<T>`:
`Ok(T::from_request(parts, body).await.ok())` — the inner extraction runs on
the same body slot, and its result is downgraded to an `Option` via
`Result::ok`.  The inner implementation is a parameter of the embedding. -/
def optionFromRequest {α : Type}
    (inner : RequestParts → BodyHolder → Except Error α × BodyHolder)
    (parts : RequestParts) (body : BodyHolder) :
    Except Error (Option α) × BodyHolder :=
  match inner parts body with
  | (.ok v, body2) => (.ok (some v), body2)
  | (.error _, body2) => (.ok none, body2)

/-! ## The form extractor from `src/web/form.rs` -/

/-- `impl<T: DeserializeOwned> FromRequest for Form<T>`.  The external
decoders `serde_urlencoded::from_str` and `serde_urlencoded::from_bytes` are
the parameters `decStr` and `decBytes` (a `String` stands for the decode
error's message).  If the method is `GET`, decode
`parts.uri.query().unwrap_or_default()`; otherwise require the
`Content-Type` header to be exactly `application/x-www-form-urlencoded`
(else `ErrorInvalidFormContentType`), then take the body
(`ErrorBodyHasBeenTaken` if the slot is empty), read it to bytes and decode
them; decode failures become `Error::bad_request`. -/
def Form.fromRequest {α : Type} (decStr : String → Except String α)
    (decBytes : ByteL → Except String α)
    (parts : RequestParts) (body : BodyHolder) :
    Except Error (Form α) × BodyHolder :=
  if parts.method = Method.GET then
    (match decStr (parts.uri.query.getD "") with
     | .ok v => .ok ⟨v⟩
     | .error e => .error (.badRequest e), body)
  else if parts.headers.get "content-type" ≠ some "application/x-www-form-urlencoded" then
    (.error .invalidFormContentType, body)
  else
    match body with
    | none => (.error .bodyHasBeenTaken, none)
    | some b =>
      match b.intoBytes with
      | .error e => (.error e, none)
      | .ok bs =>
        match decBytes bs with
        | .ok v => (.ok ⟨v⟩, none)
        | .error e => (.error (.badRequest e), none)

/-! ## Response protocol: combinators from `src/web/mod.rs` -/

/-- `impl IntoResponse for ()`: `Response::builder().body(Body::empty())` —
a default-status, empty-body response. -/
def unitIntoResponse (_u : Unit) : Except Error Response :=
  .ok { body := [] }

/-- `impl IntoResponse for StatusCode`:
`Response::builder().status(self).body(Body::empty())`. -/
def statusCodeIntoResponse (s : Nat) : Except Error Response :=
  .ok { status := s, body := [] }

/-- `impl<T: IntoResponse> IntoResponse for (StatusCode, T)`: convert the
inner value (its implementation `ir` is a parameter of the embedding),
propagate its failure (`?`), then `resp.set_status(self.0)`. -/
def pairIntoResponse {α : Type} (ir : α → Except Error Response)
    (status : Nat) (v : α) : Except Error Response :=
  match ir v with
  | .error e => .error e
  | .ok resp => .ok (resp.setStatus status)

/-- `impl<T: IntoResponse> IntoResponse for (StatusCode, HeaderMap, T)`:
convert the inner value, propagate its failure, `resp.set_status(self.0)`,
then `resp.headers_mut().extend(self.1.into_iter())`. -/
def tripleIntoResponse {α : Type} (ir : α → Except Error Response)
    (status : Nat) (headers : HeaderMap) (v : α) : Except Error Response :=
  match ir v with
  | .error e => .error e
  | .ok resp => .ok ((resp.setStatus status).extendHeaders headers)

/-- `impl<T: IntoResponse, E: Into<Error>> IntoResponse for Result<T, E>`:
`self.map_err(Into::into).and_then(IntoResponse::into_response)`.  The
success type's implementation `ir` and the failure type's `Into<Error>`
conversion `intoError` are parameters of the embedding. -/
def resultIntoResponse {α ε : Type} (ir : α → Except Error Response)
    (intoError : ε → Error) (r : Except ε α) : Except Error Response :=
  (r.mapError intoError).bind ir

/-! ## Claims -/

/-- Claim C1: for every GET request, `Form<T>` extraction decodes the URI's
query component (an absent query is treated as the empty string), wraps a
successful decode in `Form`, maps a decode failure to a bad-request error,
and leaves the body holder exactly as it was. -/
theorem form_get_decodes_query {α : Type} (decStr : String → Except String α)
    (decBytes : ByteL → Except String α) (parts : RequestParts) (hb : BodyHolder)
    (hget : parts.method = Method.GET) :
    Form.fromRequest decStr decBytes parts hb =
      ((match decStr (parts.uri.query.getD "") with
        | .ok v => .ok ⟨v⟩
        | .error e => .error (.badRequest e)), hb) := by
  simp [Form.fromRequest, hget]

theorem form_get_decodes_query_witness :
    Form.fromRequest
      (fun s => if s = "name=Ann" then Except.ok 1 else Except.error "bad")
      (fun _ => (Except.error "unused" : Except String Nat))
      { method := .GET, uri := { path := "/x", query := some "name=Ann" },
        version := .http11, headers := ⟨[]⟩, extensions := [] }
      (some ⟨.ok [1, 2]⟩) =
      (.ok ⟨1⟩, some ⟨.ok [1, 2]⟩) := by
  exact (form_get_decodes_query _ _ _ _ rfl).trans (by decide)

/-- Claim C2: for every non-GET request whose `Content-Type` header is
absent or not exactly `application/x-www-form-urlencoded`, `Form<T>`
extraction fails with `ErrorInvalidFormContentType` and the body holder is
returned unchanged, whatever its state. -/
theorem form_nonget_bad_content_type {α : Type} (decStr : String → Except String α)
    (decBytes : ByteL → Except String α) (parts : RequestParts) (hb : BodyHolder)
    (hne : parts.method ≠ Method.GET)
    (hct : parts.headers.get "content-type" ≠ some "application/x-www-form-urlencoded") :
    Form.fromRequest decStr decBytes parts hb = (.error .invalidFormContentType, hb) := by
  simp [Form.fromRequest, hne, hct]

theorem form_nonget_bad_content_type_witness :
    Form.fromRequest
      (fun _ => (Except.error "unused" : Except String Nat))
      (fun _ => (Except.error "unused" : Except String Nat))
      { method := .POST, uri := { path := "/x", query := none },
        version := .http11, headers := ⟨[("content-type", "application/json")]⟩,
        extensions := [] }
      (some ⟨.ok [110]⟩) =
      (.error .invalidFormContentType, some ⟨.ok [110]⟩) := by
  exact form_nonget_bad_content_type _ _ _ _ (by decide) (by decide)

/-- Claim C3: for every non-GET request with `Content-Type` exactly
`application/x-www-form-urlencoded`, `Form<T>` extraction takes the body —
failing with `ErrorBodyHasBeenTaken` when the holder is already empty — and,
when the body reads to bytes successfully, decodes those bytes, wraps a
successful decode in `Form`, maps a decode failure to a bad-request error,
and leaves the holder empty afterwards. -/
theorem form_nonget_decodes_body {α : Type} (decStr : String → Except String α)
    (decBytes : ByteL → Except String α) (parts : RequestParts) (hb : BodyHolder)
    (hne : parts.method ≠ Method.GET)
    (hct : parts.headers.get "content-type" = some "application/x-www-form-urlencoded") :
    (hb = none →
      Form.fromRequest decStr decBytes parts hb = (.error .bodyHasBeenTaken, none)) ∧
    (∀ b bs, hb = some b → b.intoBytes = .ok bs →
      Form.fromRequest decStr decBytes parts hb =
        ((match decBytes bs with
          | .ok v => .ok ⟨v⟩
          | .error e => .error (.badRequest e)), none)) := by
  constructor
  · rintro rfl
    simp [Form.fromRequest, hne, hct]
  · rintro b bs rfl hbytes
    simp [Form.fromRequest, hne, hct, hbytes]
    rcases decBytes bs with e | v <;> rfl

theorem form_nonget_decodes_body_witness :
    Form.fromRequest
      (fun _ => (Except.error "unused" : Except String Nat))
      (fun bs => if bs = [110, 61, 53] then Except.ok 5 else Except.error "bad")
      { method := .POST, uri := { path := "/x", query := none },
        version := .http11,
        headers := ⟨[("content-type", "application/x-www-form-urlencoded")]⟩,
        extensions := [] }
      (some ⟨.ok [110, 61, 53]⟩) =
      (.ok ⟨5⟩, none) := by
  exact (((form_nonget_decodes_body _ _ _ _ (by decide) (by decide)).2
    ⟨.ok [110, 61, 53]⟩ [110, 61, 53] rfl rfl).trans (by decide))

/-- Claim C4: each body-taking extractor (`Body`, `String`, `Bytes`,
`Vec<u8>`) leaves the holder empty after running on a present body, and each
one, run on an empty holder — the state any earlier take leaves behind —
fails deterministically with `ErrorBodyHasBeenTaken` and leaves the holder
empty. -/
theorem body_taken_at_most_once (parts : RequestParts) (b : Body) :
    (bodyFromRequest parts (some b)).2 = none ∧
    (stringFromRequest parts (some b)).2 = none ∧
    (bytesFromRequest parts (some b)).2 = none ∧
    (vecFromRequest parts (some b)).2 = none ∧
    bodyFromRequest parts none = (.error .bodyHasBeenTaken, none) ∧
    stringFromRequest parts none = (.error .bodyHasBeenTaken, none) ∧
    bytesFromRequest parts none = (.error .bodyHasBeenTaken, none) ∧
    vecFromRequest parts none = (.error .bodyHasBeenTaken, none) := by
  refine ⟨rfl, ?_, ?_, ?_, rfl, rfl, rfl, rfl⟩ <;>
    · rcases h : b.intoBytes with e | bs <;>
        simp [stringFromRequest, bytesFromRequest, vecFromRequest, h] <;>
      rcases utf8Chars bs with _ | cs <;> simp

/-- Claim C5: `Option<T>` extraction never returns an error: it returns
`Ok(some v)` when the inner extraction succeeds with `v` and `Ok(none)` when
the inner extraction fails for any reason, while passing the inner
extraction's body-holder effect through. -/
theorem option_extraction_never_fails {α : Type}
    (inner : RequestParts → BodyHolder → Except Error α × BodyHolder)
    (parts : RequestParts) (hb : BodyHolder) :
    optionFromRequest inner parts hb =
      (.ok (inner parts hb).1.toOption, (inner parts hb).2) := by
  unfold optionFromRequest
  rcases h : inner parts hb with ⟨r, b2⟩
  cases r <;> simp [Except.toOption, h]

/-- Claim C6: `(StatusCode, T)` conversion yields the inner conversion's
response with only its status overwritten; `(StatusCode, HeaderMap, T)`
conversion additionally appends — does not replace — the supplied headers;
and when the inner conversion fails, both tuple conversions fail with that
same error. -/
theorem tuple_response_refines {α : Type} (ir : α → Except Error Response)
    (status : Nat) (hs : HeaderMap) (v : α) :
    (∀ r, ir v = .ok r →
      pairIntoResponse ir status v = .ok { r with status := status } ∧
      tripleIntoResponse ir status hs v =
        .ok { r with status := status, headers := r.headers.extend hs }) ∧
    (∀ e, ir v = .error e →
      pairIntoResponse ir status v = .error e ∧
      tripleIntoResponse ir status hs v = .error e) := by
  constructor
  · intro r h
    simp [pairIntoResponse, tripleIntoResponse, h, Response.setStatus, Response.extendHeaders]
  · intro e h
    simp [pairIntoResponse, tripleIntoResponse, h]

theorem tuple_response_refines_witness :
    pairIntoResponse statusCodeIntoResponse 404 204 =
      .ok { status := 404, headers := ⟨[]⟩, body := [] } ∧
    tripleIntoResponse statusCodeIntoResponse 201 ⟨[("x-trace", "abc")]⟩ 204 =
      .ok { status := 201, headers := ⟨[("x-trace", "abc")]⟩, body := [] } := by
  constructor
  · exact (((tuple_response_refines statusCodeIntoResponse 404 ⟨[]⟩ 204).1
      { status := 204, headers := ⟨[]⟩, body := [] } rfl).1).trans (by decide)
  · exact (((tuple_response_refines statusCodeIntoResponse 201 ⟨[("x-trace", "abc")]⟩ 204).1
      { status := 204, headers := ⟨[]⟩, body := [] } rfl).2).trans (by decide)

/-- Claim C7: `Result<T, E>` conversion sends `Ok(v)` to exactly `v`'s own
conversion and sends `Err(e)` to the `Error` obtained from `e`, without
building any response on the failure path. -/
theorem result_response_short_circuits {α ε : Type} (ir : α → Except Error Response)
    (intoError : ε → Error) :
    (∀ v, resultIntoResponse ir intoError (.ok v) = ir v) ∧
    (∀ e, resultIntoResponse ir intoError (.error e) = .error (intoError e)) :=
  ⟨fun _ => rfl, fun _ => rfl⟩

/-- Claim C8: the metadata extractors (`&RequestParts`, `&Uri`, `Method`,
`Version`, `&HeaderMap`) always succeed, return exactly the corresponding
field of the request metadata, and leave the body holder unchanged. -/
theorem metadata_extractors_pure (parts : RequestParts) (hb : BodyHolder) :
    requestPartsFromRequest parts hb = (.ok parts, hb) ∧
    uriFromRequest parts hb = (.ok parts.uri, hb) ∧
    methodFromRequest parts hb = (.ok parts.method, hb) ∧
    versionFromRequest parts hb = (.ok parts.version, hb) ∧
    headersFromRequest parts hb = (.ok parts.headers, hb) :=
  ⟨rfl, rfl, rfl, rfl, rfl⟩

/-- Claim C9: `Option<T>`'s error suppression is not atomic with respect to
the body: for `Option<String>` on a present body whose bytes are not valid
UTF-8, extraction returns `Ok(none)` yet leaves the holder empty, so a
subsequent body extraction in the same request fails with
`ErrorBodyHasBeenTaken` even though no error was propagated. -/
theorem option_suppression_consumes_body (parts : RequestParts) (bs : ByteL)
    (hinv : utf8Chars bs = none) :
    optionFromRequest stringFromRequest parts (some ⟨.ok bs⟩) = (.ok none, none) ∧
    bodyFromRequest parts
        (optionFromRequest stringFromRequest parts (some ⟨.ok bs⟩)).2 =
      (.error .bodyHasBeenTaken, none) := by
  have h1 : optionFromRequest stringFromRequest parts (some ⟨.ok bs⟩) = (.ok none, none) := by
    simp [optionFromRequest, stringFromRequest, hinv]
  refine ⟨h1, ?_⟩
  rw [h1]
  rfl

theorem option_suppression_consumes_body_witness :
    optionFromRequest stringFromRequest
      { method := .POST, uri := { path := "/x", query := none },
        version := .http11, headers := ⟨[]⟩, extensions := [] }
      (some ⟨.ok [255]⟩) = (.ok none, none) ∧
    bodyFromRequest
      { method := .POST, uri := { path := "/x", query := none },
        version := .http11, headers := ⟨[]⟩, extensions := [] }
      (optionFromRequest stringFromRequest
        { method := .POST, uri := { path := "/x", query := none },
          version := .http11, headers := ⟨[]⟩, extensions := [] }
        (some ⟨.ok [255]⟩)).2 =
      (.error .bodyHasBeenTaken, none) := by
  exact option_suppression_consumes_body _ [255] (by decide)

/-- Claim C10: for GET requests, `Form<T>` extraction is independent of the
headers (in particular of `Content-Type`): replacing the header collection
of a GET request changes nothing about the extraction's result. -/
theorem form_get_headers_irrelevant {α : Type} (decStr : String → Except String α)
    (decBytes : ByteL → Except String α) (parts : RequestParts)
    (headers2 : HeaderMap) (hb : BodyHolder)
    (hget : parts.method = Method.GET) :
    Form.fromRequest decStr decBytes { parts with headers := headers2 } hb =
      Form.fromRequest decStr decBytes parts hb := by
  simp [Form.fromRequest, hget]

theorem form_get_headers_irrelevant_witness :
    Form.fromRequest
      (fun s => if s = "a=1" then Except.ok 1 else Except.error "bad")
      (fun _ => (Except.error "unused" : Except String Nat))
      { method := .GET, uri := { path := "/x", query := some "a=1" },
        version := .http11, headers := ⟨[("content-type", "application/json")]⟩,
        extensions := [] }
      none =
    Form.fromRequest
      (fun s => if s = "a=1" then Except.ok 1 else Except.error "bad")
      (fun _ => (Except.error "unused" : Except String Nat))
      { method := .GET, uri := { path := "/x", query := some "a=1" },
        version := .http11, headers := ⟨[]⟩, extensions := [] }
      none := by
  exact form_get_headers_irrelevant _ _
    { method := .GET, uri := { path := "/x", query := some "a=1" },
      version := .http11, headers := ⟨[]⟩, extensions := [] }
    ⟨[("content-type", "application/json")]⟩ none rfl

end Poem
